import Mathlib

/-!
Verification of the client-side aggregation and rendering pipeline of the
airline analytics dashboard (frontend/app.js): sample data generation,
statistics, top-N chart rankings, CSV export, and the load/fallback state
machine. Math.random() draws are modelled as explicit parameters
(`Fin n` for `Math.floor(Math.random() * n)`).
-/

namespace AirlineDashboard

/-- Flight record as built by `generateSampleData` and consumed by the
dashboard (field names follow the JS object keys). -/
structure Flight where
  flight_number : String
  airline : String
  origin : String
  destination : String
  route : String
  departure_time : String
  arrival_time : String
  price : Nat
  duration : String
  status : String
  date : String
deriving Repr, DecidableEq, Inhabited

/-- The fixed 16-airport set in `generateSampleData`. -/
def airports : List String :=
  ["JFK", "LAX", "ORD", "DFW", "DEN", "SFO", "LAS", "MIA",
   "BOS", "SEA", "ATL", "PHX", "LGA", "EWR", "IAD", "DCA"]

/-- The fixed 8-carrier set in `generateSampleData`. -/
def airlineNames : List String :=
  ["American Airlines", "Delta Air Lines", "United Airlines", "Southwest Airlines",
   "JetBlue Airways", "Alaska Airlines", "Spirit Airlines", "Frontier Airlines"]

/-- The fixed status set in `generateSampleData`. -/
def statusNames : List String := ["On Time", "Delayed", "Boarding", "Departed"]

/-- One record's worth of `Math.random()` draws inside the generator loop;
each field models one `Math.floor(Math.random() * n)` expression as `Fin n`. -/
structure Rand where
  originIdx : Fin 16
  destIdx : Fin 15
  airlineIdx : Fin 8
  priceR : Fin 800
  fnR : Fin 9000
  depHour : Fin 24
  depMin : Fin 60
  durHours : Fin 6
  arrMinExtra : Fin 60
  durMins : Fin 60
  statusIdx : Fin 4
deriving Repr, DecidableEq

/-- JS `n.toString().padStart(2, '0')` for a natural number. -/
def pad2 (n : Nat) : String :=
  let s := toString n
  if s.length < 2 then "0" ++ s else s

/-- JS `.toUpperCase()` on ASCII strings: uppercase every character. -/
def upperAscii (s : String) : String := String.mk (s.data.map Char.toUpper)

/-- JS `airline.split(' ')[0].substring(0, 2).toUpperCase()`. -/
def airlinePrefix (airline : String) : String :=
  upperAscii ((airline.takeWhile (fun c => c ≠ ' ')).take 2)

/-- One iteration of the loop body of `generateSampleData` (app.js lines
103-130), with the `Math.random()` draws supplied by `r`. JS `origin || x`
on strings is `x` exactly when `origin` is the empty string. -/
def genFlight (origin destination today : String) (r : Rand) : Flight :=
  let fromAirport := if origin ≠ "" then origin else airports.getD r.originIdx ""
  let toAirport := if destination ≠ "" then destination
    else (airports.filter (fun a => a ≠ fromAirport)).getD r.destIdx ""
  let airline := airlineNames.getD r.airlineIdx ""
  let price := r.priceR.val + 200
  let flightNumber := airlinePrefix airline ++ toString (r.fnR.val + 1000)
  let flightDuration := r.durHours.val + 1
  let arrivalHour := (r.depHour.val + flightDuration) % 24
  let arrivalMinute := (r.depMin.val + r.arrMinExtra.val) % 60
  { flight_number := flightNumber
    airline := airline
    origin := fromAirport
    destination := toAirport
    route := fromAirport ++ "-" ++ toAirport
    departure_time := pad2 r.depHour.val ++ ":" ++ pad2 r.depMin.val
    arrival_time := pad2 arrivalHour ++ ":" ++ pad2 arrivalMinute
    price := price
    duration := toString flightDuration ++ "h " ++ toString r.durMins.val ++ "m"
    status := statusNames.getD r.statusIdx ""
    date := today }

/-- `generateSampleData(limit, origin, destination)`: `limit` loop iterations,
each pushing one record built from fresh random draws. -/
def generateSampleData (limit : Nat) (origin destination today : String)
    (rand : Nat → Rand) : List Flight :=
  (List.range limit).map (fun i => genFlight origin destination today (rand i))

/-- `convertToCSV` (app.js lines 539-555): fixed 7-column header row, then one
comma-joined row per record. -/
def convertToCSV (data : List Flight) : String :=
  let headers := ["Flight Number", "Airline", "Route", "Departure", "Arrival", "Price", "Status"]
  let rows := data.map (fun flight =>
    String.intercalate "," [flight.flight_number, flight.airline, flight.route,
      flight.departure_time, flight.arrival_time, toString flight.price, flight.status])
  String.intercalate "\n" (String.intercalate "," headers :: rows)

/-- The concrete one-record input used by the CSV test property. -/
def csvSampleRecord : Flight :=
  { flight_number := "AA123"
    airline := "American Airlines"
    origin := "JFK"
    destination := "LAX"
    route := "JFK-LAX"
    departure_time := "08:00"
    arrival_time := "11:00"
    price := 350
    duration := "3h 0m"
    status := "On Time"
    date := "2024-01-01" }

lemma airports_filter_getD_length (i : Fin 16) :
    (airports.filter (fun a => a ≠ airports.getD i "")).length = 15 := by
  fin_cases i <;> decide

lemma getD_filter_satisfies {l : List String} {p : String → Bool} {j : Nat} {d : String}
    (h : j < (l.filter p).length) : p ((l.filter p).getD j d) = true := by
  rw [List.getD_eq_getElem _ _ h]
  exact List.of_mem_filter (List.getElem_mem h)

lemma genFlight_origin_ne_destination (today : String) (r : Rand) :
    (genFlight "" "" today r).origin ≠ (genFlight "" "" today r).destination := by
  show airports.getD r.originIdx "" ≠
    (airports.filter (fun a => a ≠ airports.getD r.originIdx "")).getD r.destIdx ""
  intro h
  have hlen : (r.destIdx : Nat) <
      (airports.filter (fun a => a ≠ airports.getD r.originIdx "")).length := by
    rw [airports_filter_getD_length]; exact r.destIdx.isLt
  have hp := getD_filter_satisfies (p := fun a => a ≠ airports.getD r.originIdx "")
    (d := "") hlen
  rw [← h] at hp
  simp at hp

/-- C1: for every non-negative `count`, `generateSampleData(count)` with no
origin/destination filter returns exactly `count` records and every record has
`origin != destination`. -/
theorem generateSampleData_length_and_origin_ne_destination
    (count : Nat) (today : String) (rand : Nat → Rand) :
    (generateSampleData count "" "" today rand).length = count ∧
    ∀ f ∈ generateSampleData count "" "" today rand, f.origin ≠ f.destination := by
  constructor
  · simp [generateSampleData]
  · intro f hf
    simp only [generateSampleData, List.mem_map] at hf
    obtain ⟨i, -, rfl⟩ := hf
    exact genFlight_origin_ne_destination today (rand i)

/-- Witness for C1 at a concrete input: a length-1 generation with all random
draws zero; its single record has distinct origin and destination. -/
theorem generateSampleData_length_and_origin_ne_destination_witness :
    (generateSampleData 1 "" "" "2024-01-01" (fun _ => ⟨0,0,0,0,0,0,0,0,0,0,0⟩)).length = 1 ∧
    (genFlight "" "" "2024-01-01" ⟨0,0,0,0,0,0,0,0,0,0,0⟩).origin ≠
      (genFlight "" "" "2024-01-01" ⟨0,0,0,0,0,0,0,0,0,0,0⟩).destination := by
  refine ⟨(generateSampleData_length_and_origin_ne_destination 1 "2024-01-01" _).1, ?_⟩
  exact (generateSampleData_length_and_origin_ne_destination 1 "2024-01-01"
      (fun _ => ⟨0,0,0,0,0,0,0,0,0,0,0⟩)).2 _
    (List.mem_map.mpr ⟨0, by simp, rfl⟩)

/-- C2: `convertToCSV` on the single sample record yields exactly the 7-column
header row, a newline, and the record's comma-joined fields. -/
theorem convertToCSV_single_record :
    convertToCSV [csvSampleRecord] =
      "Flight Number,Airline,Route,Departure,Arrival,Price,Status\nAA123,American Airlines,JFK-LAX,08:00,11:00,350,On Time" := by
  decide

/-- The `dashboardStats` fallback object (app.js lines 7-12). -/
structure DashboardStats where
  totalFlights : Nat
  uniqueRoutes : Nat
  airlines : Nat
  airports : Nat
deriving Repr, DecidableEq

/-- Initial value of the global `dashboardStats`. -/
def dashboardStats : DashboardStats := ⟨300, 10, 10, 10⟩

/-- JS `x || d` on numbers: `d` exactly when `x` is the (falsy) number 0. -/
def orFalsy (n d : Nat) : Nat := if n = 0 then d else n

/-- `updateStatistics` (app.js lines 144-153): each displayed statistic is the
computed value coalesced against the `dashboardStats` default; `new Set(xs).size`
is the number of distinct elements, i.e. `xs.dedup.length`. -/
def updateStatistics (flights : List Flight) : DashboardStats :=
  { totalFlights := orFalsy flights.length dashboardStats.totalFlights
    uniqueRoutes := orFalsy (flights.map (fun f => f.route)).dedup.length dashboardStats.uniqueRoutes
    airlines := orFalsy (flights.map (fun f => f.airline)).dedup.length dashboardStats.airlines
    airports := orFalsy (flights.flatMap (fun f => [f.origin, f.destination])).dedup.length
      dashboardStats.airports }

/-- C3: the displayed statistics equal the computed count/cardinalities, except
that falsy (zero) computed values are replaced by the fixed defaults 300, 10,
10, 10; on an empty collection all four show the defaults. -/
theorem updateStatistics_defaults_and_computed (flights : List Flight) :
    (flights = [] → updateStatistics flights = dashboardStats) ∧
    (flights ≠ [] → updateStatistics flights =
      { totalFlights := flights.length
        uniqueRoutes := (flights.map (fun f => f.route)).dedup.length
        airlines := (flights.map (fun f => f.airline)).dedup.length
        airports := (flights.flatMap (fun f => [f.origin, f.destination])).dedup.length }) := by
  constructor
  · rintro rfl; rfl
  · intro h
    have h1 : flights.length ≠ 0 := by simpa [List.length_eq_zero] using h
    have h2 : (flights.map (fun f => f.route)).dedup.length ≠ 0 := by
      simp [List.length_eq_zero, List.dedup_eq_nil, h]
    have h3 : (flights.map (fun f => f.airline)).dedup.length ≠ 0 := by
      simp [List.length_eq_zero, List.dedup_eq_nil, h]
    have h4 : (flights.flatMap (fun f => [f.origin, f.destination])).dedup.length ≠ 0 := by
      simp only [ne_eq, List.length_eq_zero, List.dedup_eq_nil, List.flatMap_eq_nil_iff]
      intro hall
      refine h (List.eq_nil_iff_forall_not_mem.mpr fun f hf => ?_)
      simpa using hall f hf
    simp [updateStatistics, orFalsy, h1, h2, h3, h4]

/-- Witness for C3: defaults on the empty collection, computed cardinalities on
a singleton collection. -/
theorem updateStatistics_defaults_and_computed_witness :
    updateStatistics [] = dashboardStats ∧
    updateStatistics [csvSampleRecord] = ⟨1, 1, 1, 2⟩ := by
  refine ⟨(updateStatistics_defaults_and_computed []).1 rfl, ?_⟩
  rw [(updateStatistics_defaults_and_computed [csvSampleRecord]).2 (by simp)]
  decide

/-- The user-visible effect of `exportData`: either the blocking alert or a
triggered CSV download. -/
inductive ExportAction where
  | alertNoData
  | download (filename : String) (csv : String)
deriving Repr, DecidableEq

/-- `exportData` (app.js lines 520-536): alert and early return on an empty
collection, otherwise serialize the full collection and trigger the download;
`currentFlightData` is never reassigned, so it is returned unchanged. -/
def exportData (flights : List Flight) : List Flight × ExportAction :=
  if flights.length = 0 then (flights, ExportAction.alertNoData)
  else (flights, ExportAction.download "airline_data.csv" (convertToCSV flights))

/-- C5: on an empty collection `exportData` raises the alert and produces no
file, leaving the collection unchanged; on a non-empty collection it downloads
the CSV serialization of the full collection. -/
theorem exportData_empty_alerts_nonempty_downloads (flights : List Flight) :
    (flights = [] → exportData flights = (flights, ExportAction.alertNoData)) ∧
    (flights ≠ [] → exportData flights =
      (flights, ExportAction.download "airline_data.csv" (convertToCSV flights))) := by
  constructor
  · rintro rfl; rfl
  · intro h
    simp [exportData, List.length_eq_zero, h]

/-- Witness for C5 at both branches. -/
theorem exportData_empty_alerts_nonempty_downloads_witness :
    exportData [] = ([], ExportAction.alertNoData) ∧
    exportData [csvSampleRecord] = ([csvSampleRecord],
      ExportAction.download "airline_data.csv" (convertToCSV [csvSampleRecord])) :=
  ⟨(exportData_empty_alerts_nonempty_downloads []).1 rfl,
   (exportData_empty_alerts_nonempty_downloads [csvSampleRecord]).2 (by simp)⟩

/-- Zero-padded HH:MM rendering of an hour and a minute. -/
def hhmm (h m : Nat) : String := pad2 h ++ ":" ++ pad2 m

/-- Random draws for the C9 counterexample: departure 00:00, duration draw 0
(1 hour), arrival-minute offset 30. -/
def randC9 : Rand := ⟨0, 0, 0, 0, 0, 0, 0, 0, 30, 0, 0⟩

/-- C9 counterexample: the generated arrival time 01:30 has a different minute
than the departure 00:00, so it is not the departure advanced by any whole
duration of 1 to 6 hours. -/
theorem genFlight_arrival_minute_counterexample :
    (genFlight "" "" "2024-01-01" randC9).departure_time = "00:00" ∧
    (genFlight "" "" "2024-01-01" randC9).arrival_time = "01:30" ∧
    (genFlight "" "" "2024-01-01" randC9).arrival_time ∉
      (List.range 6).map (fun d => hhmm ((0 + (d + 1)) % 24) 0) := by
  decide

/-- C9 amended: the arrival hour is the departure hour plus a uniformly chosen
1-6 hour duration modulo 24, while the arrival minute is the departure minute
plus an independent uniform 0-59 offset modulo 60 (it does not in general equal
the departure minute). -/
theorem genFlight_times (origin destination today : String) (r : Rand) :
    ∃ dur extra, 1 ≤ dur ∧ dur ≤ 6 ∧ extra < 60 ∧
      (genFlight origin destination today r).departure_time = hhmm r.depHour.val r.depMin.val ∧
      (genFlight origin destination today r).arrival_time =
        hhmm ((r.depHour.val + dur) % 24) ((r.depMin.val + extra) % 60) := by
  refine ⟨r.durHours.val + 1, r.arrMinExtra.val, ?_, ?_, r.arrMinExtra.isLt, rfl, rfl⟩
  · omega
  · have := r.durHours.isLt
    omega

/-- The dashboard's mutable client state: the flight collection, whether the
derived views have been recomputed from it, and the loading overlay. -/
structure DashState where
  currentFlightData : List Flight
  rendered : Bool
  loading : Bool
deriving Repr, DecidableEq

/-- Outcome of the awaited `fetch` in a load operation: a 2xx response carrying
an optional `flights` field, a non-2xx response, or a thrown transport error. -/
inductive FetchOutcome where
  | ok (flights : Option (List Flight))
  | httpError
  | networkError
deriving Repr, DecidableEq

/-- Initial page state before any data is loaded. -/
def emptyState : DashState := { currentFlightData := [], rendered := false, loading := false }

/-- The request body assembled by `loadFilteredData` (app.js lines 63-65):
airport codes are included only when non-empty, uppercased. -/
def searchParams (fromAirport toAirport : String) : Option String × Option String :=
  (if fromAirport ≠ "" then some (upperAscii fromAirport) else none,
   if toAirport ≠ "" then some (upperAscii toAirport) else none)

/-- `loadFilteredData` (app.js lines 54-93): on a 2xx response install
`data.flights?.slice(0, limit) || []`; on a non-2xx response or a transport
error install `generateSampleData(limit, from, to)`; every path then updates
the dashboard and hides the loading overlay. -/
def loadFilteredData (s : DashState) (fromAirport toAirport : String) (dataLimit : Nat)
    (outcome : FetchOutcome) (today : String) (rand : Nat → Rand) : DashState :=
  match outcome with
  | FetchOutcome.ok fl =>
      { s with currentFlightData := (fl.map (fun l => l.take dataLimit)).getD []
               rendered := true
               loading := false }
  | FetchOutcome.httpError =>
      { s with currentFlightData := generateSampleData dataLimit fromAirport toAirport today rand
               rendered := true
               loading := false }
  | FetchOutcome.networkError =>
      { s with currentFlightData := generateSampleData dataLimit fromAirport toAirport today rand
               rendered := true
               loading := false }

/-- `loadInitialData` (app.js lines 482-507): the collection is replaced (and
the dashboard re-rendered) only on a 2xx response whose `flights` field is
present and non-empty; otherwise nothing happens. -/
def loadInitialData (s : DashState) (outcome : FetchOutcome) : DashState :=
  match outcome with
  | FetchOutcome.ok (some fl) =>
      if fl.length > 0 then { s with currentFlightData := fl, rendered := true } else s
  | FetchOutcome.ok none => s
  | FetchOutcome.httpError => s
  | FetchOutcome.networkError => s

/-- `loadSampleData` (app.js lines 476-479): install 50 generated records and
update the dashboard. -/
def loadSampleData (s : DashState) (today : String) (rand : Nat → Rand) : DashState :=
  { s with currentFlightData := generateSampleData 50 "" "" today rand, rendered := true }

lemma genFlight_origin_of_nonempty (origin destination today : String) (r : Rand)
    (ho : origin ≠ "") : (genFlight origin destination today r).origin = origin := by
  simp [genFlight, ho]

lemma genFlight_destination_of_nonempty (origin destination today : String) (r : Rand)
    (hd : destination ≠ "") :
    (genFlight origin destination today r).destination = destination := by
  simp [genFlight, hd]

/-- C7: with filters JFK/LAX and limit 50, a failed fetch (non-2xx or thrown)
yields exactly 50 records, all JFK to LAX, and the dashboard reaches the same
rendered, not-loading state as any successful load; the request itself carried
the validated uppercased codes. -/
theorem loadFilteredData_fallback_jfk_lax (s : DashState) (outcome : FetchOutcome)
    (today : String) (rand : Nat → Rand)
    (h : outcome = FetchOutcome.httpError ∨ outcome = FetchOutcome.networkError) :
    (loadFilteredData s "JFK" "LAX" 50 outcome today rand).currentFlightData.length = 50 ∧
    (∀ f ∈ (loadFilteredData s "JFK" "LAX" 50 outcome today rand).currentFlightData,
        f.origin = "JFK" ∧ f.destination = "LAX") ∧
    (loadFilteredData s "JFK" "LAX" 50 outcome today rand).rendered = true ∧
    (loadFilteredData s "JFK" "LAX" 50 outcome today rand).loading = false ∧
    (∀ fl, (loadFilteredData s "JFK" "LAX" 50 (FetchOutcome.ok fl) today rand).rendered = true ∧
           (loadFilteredData s "JFK" "LAX" 50 (FetchOutcome.ok fl) today rand).loading = false) ∧
    searchParams "JFK" "LAX" = (some "JFK", some "LAX") := by
  have hmem : ∀ outcome', outcome' = FetchOutcome.httpError ∨ outcome' = FetchOutcome.networkError →
      ∀ f ∈ (loadFilteredData s "JFK" "LAX" 50 outcome' today rand).currentFlightData,
        f.origin = "JFK" ∧ f.destination = "LAX" := by
    rintro outcome' (rfl | rfl) f hf <;>
    · simp only [loadFilteredData, generateSampleData, List.mem_map] at hf
      obtain ⟨i, -, rfl⟩ := hf
      exact ⟨genFlight_origin_of_nonempty _ _ _ _ (by decide),
             genFlight_destination_of_nonempty _ _ _ _ (by decide)⟩
  obtain rfl | rfl := h <;>
  exact ⟨by simp [loadFilteredData, generateSampleData], hmem _ (by simp), rfl, rfl,
    fun fl => ⟨rfl, rfl⟩, by decide⟩

/-- Witness for C7 at a concrete failed fetch. -/
theorem loadFilteredData_fallback_jfk_lax_witness :
    (loadFilteredData emptyState "JFK" "LAX" 50 FetchOutcome.httpError "2024-01-01"
        (fun _ => ⟨0,0,0,0,0,0,0,0,0,0,0⟩)).currentFlightData.length = 50 :=
  (loadFilteredData_fallback_jfk_lax emptyState FetchOutcome.httpError "2024-01-01"
      (fun _ => ⟨0,0,0,0,0,0,0,0,0,0,0⟩) (Or.inl rfl)).1

/-- C6 counterexample: with the page's default limit of 50 (which
`loadInitialData` never reads), a successful initial load whose response
carries 51 flights is installed untruncated and rendered, so the derived views
aggregate over 51 > 50 records. -/
theorem loadInitialData_untruncated_counterexample :
    (loadInitialData emptyState (FetchOutcome.ok (some
        (List.replicate 51 csvSampleRecord)))).currentFlightData.length = 51 ∧
    (loadInitialData emptyState (FetchOutcome.ok (some
        (List.replicate 51 csvSampleRecord)))).rendered = true ∧
    50 < 51 := by
  refine ⟨?_, ?_, by norm_num⟩ <;> simp [loadInitialData, emptyState]

/-- C6 amended: `loadFilteredData` applies the limit truncation before
aggregation (the rendered collection has at most `limit` records on every
path), but `loadInitialData` installs a successful non-empty remote result
untruncated. -/
theorem loadFilteredData_truncates_before_aggregation (s : DashState)
    (fromAirport toAirport : String) (dataLimit : Nat) (outcome : FetchOutcome)
    (today : String) (rand : Nat → Rand) :
    (loadFilteredData s fromAirport toAirport dataLimit outcome today
        rand).currentFlightData.length ≤ dataLimit ∧
    (loadFilteredData s fromAirport toAirport dataLimit outcome today rand).rendered = true ∧
    (∀ fl, fl ≠ [] → (loadInitialData s (FetchOutcome.ok (some fl))).currentFlightData = fl) := by
  refine ⟨?_, ?_, ?_⟩
  · cases outcome with
    | ok fl =>
        cases fl with
        | none => simp [loadFilteredData]
        | some l => simp [loadFilteredData]
    | httpError => simp [loadFilteredData, generateSampleData]
    | networkError => simp [loadFilteredData, generateSampleData]
  · cases outcome <;> rfl
  · intro fl hfl
    have hpos : 0 < fl.length := List.length_pos.mpr hfl
    simp [loadInitialData, hpos]

/-- Witness for C6's amended claim at concrete inputs. -/
theorem loadFilteredData_truncates_before_aggregation_witness :
    (loadFilteredData emptyState "" "" 50 FetchOutcome.httpError "2024-01-01"
        (fun _ => ⟨0,0,0,0,0,0,0,0,0,0,0⟩)).currentFlightData.length ≤ 50 ∧
    (loadInitialData emptyState (FetchOutcome.ok
        (some [csvSampleRecord]))).currentFlightData = [csvSampleRecord] :=
  ⟨(loadFilteredData_truncates_before_aggregation emptyState "" "" 50 FetchOutcome.httpError
      "2024-01-01" (fun _ => ⟨0,0,0,0,0,0,0,0,0,0,0⟩)).1,
   (loadFilteredData_truncates_before_aggregation emptyState "" "" 50 FetchOutcome.httpError
      "2024-01-01" (fun _ => ⟨0,0,0,0,0,0,0,0,0,0,0⟩)).2.2 [csvSampleRecord] (by simp)⟩

/-- C10: the initial remote load replaces the collection only on a 2xx response
with a present, non-empty flights list; on an absent or empty list, a non-2xx
status, or a transport error, the state is returned unchanged. -/
theorem loadInitialData_replaces_only_on_success (s : DashState) (outcome : FetchOutcome) :
    (∀ fl, outcome = FetchOutcome.ok (some fl) → fl ≠ [] →
      loadInitialData s outcome = { s with currentFlightData := fl, rendered := true }) ∧
    (outcome = FetchOutcome.ok none → loadInitialData s outcome = s) ∧
    (∀ fl, outcome = FetchOutcome.ok (some fl) → fl = [] → loadInitialData s outcome = s) ∧
    (outcome = FetchOutcome.httpError → loadInitialData s outcome = s) ∧
    (outcome = FetchOutcome.networkError → loadInitialData s outcome = s) := by
  refine ⟨?_, ?_, ?_, ?_, ?_⟩
  · rintro fl rfl hfl
    have hpos : 0 < fl.length := List.length_pos.mpr hfl
    simp [loadInitialData, hpos]
  · rintro rfl; rfl
  · rintro fl rfl rfl; rfl
  · rintro rfl; rfl
  · rintro rfl; rfl

/-- Witness for C10: a successful non-empty load replaces the collection; a
non-2xx response leaves the state unchanged. -/
theorem loadInitialData_replaces_only_on_success_witness :
    loadInitialData emptyState (FetchOutcome.ok (some [csvSampleRecord])) =
      { emptyState with currentFlightData := [csvSampleRecord], rendered := true } ∧
    loadInitialData emptyState FetchOutcome.httpError = emptyState :=
  ⟨(loadInitialData_replaces_only_on_success emptyState
      (FetchOutcome.ok (some [csvSampleRecord]))).1 [csvSampleRecord] rfl (by simp),
   (loadInitialData_replaces_only_on_success emptyState FetchOutcome.httpError).2.2.2.1 rfl⟩

/-- `generatePriceTrend` (app.js lines 350-368): a 31-point series, one point
per day offset `i = 30, 29, ..., 0`; each point is
`round(max(200, 450 + (rand - 0.5) * 100 + sin(i * 0.1) * 50))`, with the
`Math.random()` draw of day offset `i` supplied as `rand i`. -/
noncomputable def generatePriceTrend (rand : Nat → ℝ) : List ℤ :=
  (List.range 31).map (fun k =>
    let i := 30 - k
    let variation := (rand i - 0.5) * 100
    let seasonalEffect := Real.sin ((i : ℝ) * 0.1) * 50
    let price := max 200 (450 + variation + seasonalEffect)
    round price)

/-- C8: for any outcome of the random source (each draw in `[0,1)`), the price
trend has exactly 31 points; each point is the rounding of the 200-floored sum
of the base price 450, a perturbation in `[-50, 50]`, and the sinusoidal term
`sin(day-offset * 0.1) * 50`; and each point is at least 200. -/
theorem generatePriceTrend_31_points_floor_200 (rand : Nat → ℝ)
    (h : ∀ i, 0 ≤ rand i ∧ rand i < 1) :
    (generatePriceTrend rand).length = 31 ∧
    ∀ k, k < 31 →
      (generatePriceTrend rand).getD k 0 =
        round (max 200 (450 + (rand (30 - k) - 0.5) * 100 +
          Real.sin (((30 - k : Nat) : ℝ) * 0.1) * 50)) ∧
      (200 : ℤ) ≤ (generatePriceTrend rand).getD k 0 ∧
      -50 ≤ (rand (30 - k) - 0.5) * 100 ∧ (rand (30 - k) - 0.5) * 100 ≤ 50 := by
  constructor
  · simp [generatePriceTrend]
  · intro k hk
    have hlen : k < (generatePriceTrend rand).length := by
      simpa [generatePriceTrend] using hk
    have hval : (generatePriceTrend rand).getD k 0 =
        round (max 200 (450 + (rand (30 - k) - 0.5) * 100 +
          Real.sin (((30 - k : Nat) : ℝ) * 0.1) * 50)) := by
      rw [List.getD_eq_getElem _ _ hlen]
      simp [generatePriceTrend]
    refine ⟨hval, ?_, ?_, ?_⟩
    · rw [hval, round_eq, Int.le_floor]
      have hmax := le_max_left (200 : ℝ)
        (450 + (rand (30 - k) - 0.5) * 100 + Real.sin (((30 - k : Nat) : ℝ) * 0.1) * 50)
      push_cast
      linarith
    · have := (h (30 - k)).1
      linarith
    · have := (h (30 - k)).2
      linarith

/-- Witness for C8 with the random source pinned to 0. -/
theorem generatePriceTrend_31_points_floor_200_witness :
    (generatePriceTrend (fun _ => 0)).length = 31 ∧
    (200 : ℤ) ≤ (generatePriceTrend (fun _ => 0)).getD 0 0 :=
  ⟨(generatePriceTrend_31_points_floor_200 (fun _ => 0) (fun i => by norm_num)).1,
   ((generatePriceTrend_31_points_floor_200 (fun _ => 0) (fun i => by norm_num)).2
      0 (by norm_num)).2.1⟩

/-- JS counter update `obj[k] = (obj[k] || 0) + 1` viewed on the
insertion-ordered entry list that `Object.entries` observes: the (unique)
existing entry for `k` is updated in place, a missing key is appended at the
end. -/
def bumpCount : List (String × Nat) → String → List (String × Nat)
  | [], k => [(k, 1)]
  | p :: t, k => if p.1 = k then (p.1, p.2 + 1) :: t else p :: bumpCount t k

/-- Entry list of the counter object built by the `forEach` loops of
`updateCharts` over a key function (`flight.route` or `flight.airline`), in
`Object.entries` order. -/
def countEntries (key : Flight → String) (flights : List Flight) : List (String × Nat) :=
  flights.foldl (fun acc f => bumpCount acc (key f)) []

/-- The JS sort comparator `(a, b) => b - a` on counts, as the switch of a
stable sort: `a` stays before `b` unless `b`'s count is strictly larger. -/
def byCountDesc (a b : String × Nat) : Bool := b.2 ≤ a.2

/-- Top 8 route entries of the route chart (app.js lines 295-297);
`Array.prototype.sort` is stable, modelled by `List.mergeSort`. -/
def topRoutes8 (flights : List Flight) : List (String × Nat) :=
  ((countEntries (fun f => f.route) flights).mergeSort byCountDesc).take 8

/-- Top 8 airline entries of the airline chart (app.js lines 309-311). -/
def topAirlines8 (flights : List Flight) : List (String × Nat) :=
  ((countEntries (fun f => f.airline) flights).mergeSort byCountDesc).take 8

/-- Per-route aggregate kept by `updateTopRoutes` (app.js lines 430-442). -/
structure RouteStat where
  count : Nat
  totalPrice : Nat
  flights : List Flight
deriving Repr, DecidableEq

/-- One `forEach` step of `updateTopRoutes` on the `routeStats` entry list. -/
def bumpStat (f : Flight) : List (String × RouteStat) → List (String × RouteStat)
  | [] => [(f.route, ⟨1, f.price, [f]⟩)]
  | p :: t =>
      if p.1 = f.route then
        (p.1, ⟨p.2.count + 1, p.2.totalPrice + f.price, p.2.flights ++ [f]⟩) :: t
      else p :: bumpStat f t

/-- The `routeStats` object of `updateTopRoutes` in `Object.entries` order. -/
def routeStatsList (flights : List Flight) : List (String × RouteStat) :=
  flights.foldl (fun acc f => bumpStat f acc) []

/-- The comparator `(a, b) => b.count - a.count` over route stats. -/
def byStatCountDesc (a b : String × RouteStat) : Bool := b.2.count ≤ a.2.count

/-- Top 5 route entries of the top-routes panel (app.js lines 444-446). -/
def topRoutes5 (flights : List Flight) : List (String × RouteStat) :=
  ((routeStatsList flights).mergeSort byStatCountDesc).take 5

/-- The route of each flight, in input order. -/
def routeKeys (flights : List Flight) : List String := flights.map (fun f => f.route)

/-- The airline of each flight, in input order. -/
def airlineKeys (flights : List Flight) : List String := flights.map (fun f => f.airline)

/-- The ranked labels of the route chart. -/
def topRoutes8Labels (flights : List Flight) : List String :=
  (topRoutes8 flights).map Prod.fst

/-- The ranked labels of the airline chart. -/
def topAirlines8Labels (flights : List Flight) : List String :=
  (topAirlines8 flights).map Prod.fst

/-- The ranked labels of the top-routes panel. -/
def topRoutes5Labels (flights : List Flight) : List String :=
  (topRoutes5 flights).map Prod.fst

/-- The distinct values of a list keeping first occurrences in order, i.e. the
JS object-key insertion order of the counters above. -/
def firstSeen : List String → List String
  | [] => []
  | a :: l => a :: (firstSeen l).filter (fun b => b ≠ a)

/-- A ranking is ordered by weakly descending key count. -/
def DescendingByCount (keys : List String) (ranking : List String) : Prop :=
  ranking.Pairwise (fun a b => keys.count b ≤ keys.count a)

/-- Stable tie-break: among keys of equal count, the one first seen earlier in
`keys` is kept whenever the later one is, and is ranked strictly earlier. -/
def StableByFirstSeen (keys : List String) (ranking : List String) : Prop :=
  ∀ k1 k2 : String, k1 ∈ keys → k2 ∈ keys →
    keys.count k1 = keys.count k2 →
    keys.indexOf k1 < keys.indexOf k2 →
    k2 ∈ ranking → k1 ∈ ranking ∧ ranking.indexOf k1 < ranking.indexOf k2

lemma mem_firstSeen {a : String} {l : List String} : a ∈ firstSeen l ↔ a ∈ l := by
  induction l with
  | nil => simp [firstSeen]
  | cons b t ih =>
      simp only [firstSeen, List.mem_cons, List.mem_filter, ih, decide_eq_true_eq]
      by_cases h : a = b
      · simp [h]
      · simp [h]

lemma nodup_firstSeen (l : List String) : (firstSeen l).Nodup := by
  induction l with
  | nil => simp [firstSeen]
  | cons b t ih =>
      rw [firstSeen, List.nodup_cons]
      exact ⟨by simp [List.mem_filter], ih.filter _⟩

lemma firstSeen_filter (p : String → Bool) (l : List String) :
    firstSeen (l.filter p) = (firstSeen l).filter p := by
  induction l with
  | nil => simp [firstSeen]
  | cons a t ih =>
      by_cases hpa : p a
      · rw [List.filter_cons_of_pos hpa, firstSeen, firstSeen, ih,
          List.filter_cons_of_pos hpa, List.filter_filter, List.filter_filter]
        exact congrArg (List.cons a) (List.filter_congr fun b _ => Bool.and_comm _ _)
      · have hpa' : p a = false := by simpa using hpa
        rw [List.filter_cons_of_neg (by simp [hpa']), firstSeen, ih,
          List.filter_cons_of_neg (by simp [hpa']), List.filter_filter]
        refine (List.filter_congr fun b hb => ?_).symm
        by_cases hpb : p b
        · have : b ≠ a := fun hba => by rw [hba, hpa'] at hpb; exact Bool.false_ne_true hpb
          simp [hpb, this]
        · simp [by simpa using hpb]

lemma bumpCount_of_mem : ∀ {acc : List (String × Nat)} {k : String},
    (acc.map Prod.fst).Nodup → k ∈ acc.map Prod.fst →
    bumpCount acc k = acc.map (fun p => if p.1 = k then (p.1, p.2 + 1) else p) := by
  intro acc
  induction acc with
  | nil => intro k _ h; simp at h
  | cons p t ih =>
      intro k hnd hk
      simp only [List.map_cons, List.nodup_cons] at hnd
      by_cases hp : p.1 = k
      · rw [bumpCount, if_pos hp, List.map_cons, if_pos hp]
        have ht : t.map (fun q => if q.1 = k then (q.1, q.2 + 1) else q) = t := by
          refine (List.map_congr_left fun q hq => if_neg fun hqk => hnd.1 ?_).trans t.map_id
          rw [← hp] at hqk
          exact hqk ▸ List.mem_map_of_mem Prod.fst hq
      --
        rw [ht]
      · have hk' : k ∈ t.map Prod.fst := by
          rcases List.mem_cons.mp hk with h | h
          · exact absurd h.symm hp
          · exact h
        rw [bumpCount, if_neg hp, List.map_cons, if_neg hp, ih hnd.2 hk']

lemma bumpCount_of_not_mem : ∀ {acc : List (String × Nat)} {k : String},
    k ∉ acc.map Prod.fst → bumpCount acc k = acc ++ [(k, 1)] := by
  intro acc
  induction acc with
  | nil => intro k _; rfl
  | cons p t ih =>
      intro k hk
      simp only [List.map_cons, List.mem_cons, not_or] at hk
      rw [bumpCount, if_neg fun h => hk.1 h.symm, ih hk.2, List.cons_append]

lemma foldl_bumpCount_eq (keys : List String) :
    ∀ acc : List (String × Nat), (acc.map Prod.fst).Nodup →
      keys.foldl bumpCount acc =
        acc.map (fun p => (p.1, p.2 + keys.count p.1)) ++
        (firstSeen (keys.filter (fun k => decide (k ∉ acc.map Prod.fst)))).map
          (fun k => (k, keys.count k)) := by
  induction keys with
  | nil =>
      intro acc _
      simp [firstSeen]
  | cons k t ih =>
      intro acc hnd
      rw [List.foldl_cons]
      by_cases hk : k ∈ acc.map Prod.fst
      · -- existing key: in-place bump, entry order unchanged
        rw [bumpCount_of_mem hnd hk]
        have hfst : (acc.map (fun p => if p.1 = k then (p.1, p.2 + 1) else p)).map Prod.fst
            = acc.map Prod.fst := by
          rw [List.map_map]
          exact List.map_congr_left fun p _ => by
            by_cases hp : p.1 = k <;> simp [hp]
        rw [ih _ (by rw [hfst]; exact hnd), hfst, List.map_map]
        have hmapeq : acc.map ((fun p => (p.1, p.2 + t.count p.1)) ∘
              (fun p => if p.1 = k then (p.1, p.2 + 1) else p)) =
            acc.map (fun p => (p.1, p.2 + (k :: t).count p.1)) := by
          refine List.map_congr_left fun p _ => ?_
          by_cases hp : p.1 = k
          · have hc : List.count p.1 (k :: t) = List.count p.1 t + 1 := by
              rw [hp, List.count_cons_self]
            simp only [Function.comp_apply, if_pos hp, hc]
            exact Prod.ext rfl (by omega)
          · have hc : List.count p.1 (k :: t) = List.count p.1 t :=
              List.count_cons_of_ne hp t
            simp only [Function.comp_apply, if_neg hp, hc]
        have hfilter : (k :: t).filter (fun x => decide (x ∉ acc.map Prod.fst)) =
            t.filter (fun x => decide (x ∉ acc.map Prod.fst)) :=
          List.filter_cons_of_neg (by simpa using hk)
        have hvals : (firstSeen (t.filter (fun x => decide (x ∉ acc.map Prod.fst)))).map
              (fun x => (x, t.count x)) =
            (firstSeen (t.filter (fun x => decide (x ∉ acc.map Prod.fst)))).map
              (fun x => (x, (k :: t).count x)) := by
          refine List.map_congr_left fun x hx => ?_
          have hxne : x ≠ k := by
            have hmem := (List.mem_filter.mp (mem_firstSeen.mp hx)).2
            intro hxk
            rw [hxk] at hmem
            simp [hk] at hmem
          rw [List.count_cons_of_ne hxne]
        rw [hmapeq, hfilter, hvals]
      · -- new key: appended at the end of the entry list
        rw [bumpCount_of_not_mem hk]
        have hfst : ((acc ++ [(k, 1)]).map Prod.fst) = acc.map Prod.fst ++ [k] := by
          simp
        have hnd' : (((acc ++ [(k, 1)]).map Prod.fst)).Nodup := by
          rw [hfst]
          simp [List.nodup_append, hnd, hk]
        rw [ih _ hnd', hfst, List.map_append]
        have haccpart : acc.map (fun p => (p.1, p.2 + t.count p.1)) =
            acc.map (fun p => (p.1, p.2 + (k :: t).count p.1)) := by
          refine List.map_congr_left fun p hp => ?_
          have : p.1 ≠ k := fun h => hk (h ▸ List.mem_map_of_mem Prod.fst hp)
          rw [List.count_cons_of_ne this]
        have hfilter2 : t.filter (fun x => decide (x ∉ acc.map Prod.fst ++ [k])) =
            (t.filter (fun x => decide (x ∉ acc.map Prod.fst))).filter
              (fun b => b ≠ k) := by
          rw [List.filter_filter]
          refine List.filter_congr fun x _ => ?_
          by_cases h1 : x ∈ acc.map Prod.fst <;> by_cases h2 : x = k <;>
            simp [h1, h2]
        have hfilter3 : (k :: t).filter (fun x => decide (x ∉ acc.map Prod.fst)) =
            k :: t.filter (fun x => decide (x ∉ acc.map Prod.fst)) :=
          List.filter_cons_of_pos (by simpa using hk)
        rw [hfilter2, firstSeen_filter, hfilter3, firstSeen]
        have hvals2 : ((firstSeen (t.filter (fun x => decide (x ∉ acc.map Prod.fst)))).filter
              (fun b => b ≠ k)).map (fun x => (x, t.count x)) =
            ((firstSeen (t.filter (fun x => decide (x ∉ acc.map Prod.fst)))).filter
              (fun b => b ≠ k)).map (fun x => (x, (k :: t).count x)) := by
          refine List.map_congr_left fun x hx => ?_
          have hxne : x ≠ k := by simpa using (List.mem_filter.mp hx).2
          rw [List.count_cons_of_ne hxne]
        rw [hvals2, haccpart, List.append_assoc]
        have hone : ([((k : String), (1 : Nat))].map (fun p => (p.1, p.2 + t.count p.1))) =
            [(k, t.count k + 1)] := by
          simp [Nat.add_comm]
        rw [hone, List.map_cons, List.count_cons_self, List.singleton_append]

/-- Closed form of the counter entry list: keys in first-seen order, each with
its occurrence count. -/
lemma countEntries_eq (key : Flight → String) (flights : List Flight) :
    countEntries key flights =
      (firstSeen (flights.map key)).map (fun k => (k, (flights.map key).count k)) := by
  have h1 : countEntries key flights = (flights.map key).foldl bumpCount [] := by
    rw [countEntries, List.foldl_map]
  rw [h1, foldl_bumpCount_eq (flights.map key) [] (by simp)]
  simp

section StableSort

open List

lemma pair_sublist_firstSeen : ∀ (l : List String) {k1 k2 : String},
    k1 ∈ l → k2 ∈ l → l.indexOf k1 < l.indexOf k2 → [k1, k2] <+ firstSeen l := by
  intro l
  induction l with
  | nil => intro k1 k2 h1 _ _; simp at h1
  | cons a t ih =>
      intro k1 k2 h1 h2 hidx
      by_cases hk2a : k2 = a
      · exfalso
        rw [hk2a, List.indexOf_cons_self] at hidx
        omega
      · have hk2t : k2 ∈ t := by
          rcases List.mem_cons.mp h2 with h | h
          · exact absurd h hk2a
          · exact h
        by_cases hk1a : k1 = a
        · rw [firstSeen, hk1a]
          refine List.Sublist.cons₂ a ?_
          rw [List.singleton_sublist, List.mem_filter]
          refine ⟨mem_firstSeen.mpr hk2t, ?_⟩
          simpa using hk2a
        · have hk1t : k1 ∈ t := by
            rcases List.mem_cons.mp h1 with h | h
            · exact absurd h hk1a
            · exact h
          have hidx' : t.indexOf k1 < t.indexOf k2 := by
            rw [List.indexOf_cons_ne t (fun h => hk1a h.symm),
              List.indexOf_cons_ne t (fun h => hk2a h.symm)] at hidx
            omega
          have hsub := ih hk1t hk2t hidx'
          have hfil := hsub.filter (fun b => decide (b ≠ a))
          have : ([k1, k2].filter (fun b => decide (b ≠ a))) = [k1, k2] := by
            simp [hk1a, hk2a]
          rw [this] at hfil
          rw [firstSeen]
          exact hfil.cons a

lemma pair_sublist_indexOf_lt {β : Type} [DecidableEq β] :
    ∀ {l : List β} {a b : β}, [a, b] <+ l → l.Nodup → l.indexOf a < l.indexOf b := by
  intro l
  induction l with
  | nil =>
      intro a b h _
      exact absurd (h.subset (List.mem_cons_self a [b])) (List.not_mem_nil a)
  | cons x t ih =>
      intro a b hsub hnd
      rw [List.nodup_cons] at hnd
      cases hsub with
      | cons _ h =>
          have ha : a ∈ t := h.subset (by simp)
          have hb : b ∈ t := h.subset (by simp)
          have hax : x ≠ a := fun e => hnd.1 (e ▸ ha)
          have hbx : x ≠ b := fun e => hnd.1 (e ▸ hb)
          rw [List.indexOf_cons_ne t hax, List.indexOf_cons_ne t hbx]
          exact Nat.succ_lt_succ (ih h hnd.2)
      | cons₂ _ h =>
          have hb : b ∈ t := List.singleton_sublist.mp h
          have hbx : x ≠ b := fun e => hnd.1 (e ▸ hb)
          rw [List.indexOf_cons_self, List.indexOf_cons_ne t hbx]
          exact Nat.succ_pos _

lemma indexOf_take {α : Type} [DecidableEq α] {l : List α} {a : α} {n : Nat}
    (h : a ∈ l.take n) : (l.take n).indexOf a = l.indexOf a := by
  conv_rhs => rw [← List.take_append_drop n l]
  rw [List.indexOf_append_of_mem h]

lemma mem_take_of_indexOf_lt {α : Type} [DecidableEq α] {l : List α} {a : α} {n : Nat}
    (hmem : a ∈ l) (hidx : l.indexOf a < n) : a ∈ l.take n := by
  by_cases hn : l.length ≤ n
  · rw [List.take_of_length_le hn]; exact hmem
  · by_contra hnot
    have heq : List.indexOf a (l.take n ++ l.drop n) =
        (l.take n).length + List.indexOf a (l.drop n) :=
      List.indexOf_append_of_not_mem hnot
    rw [List.take_append_drop, List.length_take] at heq
    rw [heq] at hidx
    omega

lemma countEntries_map_fst (key : Flight → String) (flights : List Flight) :
    (countEntries key flights).map Prod.fst = firstSeen (flights.map key) := by
  rw [countEntries_eq, List.map_map]
  exact (List.map_congr_left fun k _ => rfl).trans (List.map_id _)

lemma countEntries_count (key : Flight → String) (flights : List Flight) :
    ∀ p ∈ countEntries key flights, p.2 = (flights.map key).count p.1 := by
  intro p hp
  rw [countEntries_eq] at hp
  obtain ⟨k, -, rfl⟩ := List.mem_map.mp hp
  rfl

lemma bumpStat_map_proj (f : Flight) :
    ∀ acc : List (String × RouteStat),
      (bumpStat f acc).map (fun p => (p.1, p.2.count)) =
        bumpCount (acc.map (fun p => (p.1, p.2.count))) f.route := by
  intro acc
  induction acc with
  | nil => rfl
  | cons p t ih =>
      by_cases hp : p.1 = f.route
      · simp only [bumpStat, if_pos hp, List.map_cons, bumpCount]
      · simp only [bumpStat, if_neg hp, List.map_cons, bumpCount]
        rw [ih]

lemma routeStatsList_map_proj (flights : List Flight) :
    (routeStatsList flights).map (fun p => (p.1, p.2.count)) =
      countEntries (fun f => f.route) flights := by
  rw [routeStatsList, countEntries]
  suffices h : ∀ acc : List (String × RouteStat),
      (flights.foldl (fun a f => bumpStat f a) acc).map (fun p => (p.1, p.2.count)) =
        flights.foldl (fun a f => bumpCount a f.route) (acc.map (fun p => (p.1, p.2.count))) by
    simpa using h []
  induction flights with
  | nil => intro acc; simp
  | cons f t ih =>
      intro acc
      rw [List.foldl_cons, List.foldl_cons, ih, bumpStat_map_proj]

lemma routeStatsList_map_fst (flights : List Flight) :
    (routeStatsList flights).map Prod.fst =
      firstSeen (flights.map (fun f => f.route)) := by
  have h := congrArg (List.map Prod.fst) (routeStatsList_map_proj flights)
  rw [List.map_map] at h
  rw [← countEntries_map_fst (fun f => f.route) flights]
  exact h

lemma routeStatsList_count (flights : List Flight) :
    ∀ p ∈ routeStatsList flights,
      p.2.count = (flights.map (fun f => f.route)).count p.1 := by
  intro p hp
  have hmem : ((fun p : String × RouteStat => (p.1, p.2.count)) p) ∈
      countEntries (fun f => f.route) flights := by
    rw [← routeStatsList_map_proj]
    exact List.mem_map_of_mem _ hp
  exact countEntries_count (fun f => f.route) flights _ hmem

lemma ranking_descending_and_stable {β : Type} [DecidableEq β]
    (keys : List String) (entries : List (String × β)) (cnt : β → Nat) (n : Nat)
    (hkeys : entries.map Prod.fst = firstSeen keys)
    (hcnt : ∀ p ∈ entries, cnt p.2 = keys.count p.1) :
    DescendingByCount keys
      (((entries.mergeSort (fun x y => cnt y.2 ≤ cnt x.2)).take n).map Prod.fst) ∧
    StableByFirstSeen keys
      (((entries.mergeSort (fun x y => cnt y.2 ≤ cnt x.2)).take n).map Prod.fst) := by
  have htrans : ∀ (a b c : String × β),
      (cnt b.2 ≤ cnt a.2 : Bool) → (cnt c.2 ≤ cnt b.2 : Bool) →
      (cnt c.2 ≤ cnt a.2 : Bool) := by
    intro a b c hab hbc
    simp only [decide_eq_true_eq] at *
    exact le_trans hbc hab
  have htotal : ∀ (a b : String × β),
      ((cnt b.2 ≤ cnt a.2 : Bool) || (cnt a.2 ≤ cnt b.2 : Bool)) := by
    intro a b
    simp only [Bool.or_eq_true, decide_eq_true_eq]
    exact Nat.le_total (cnt b.2) (cnt a.2)
  have hknodup : (entries.map Prod.fst).Nodup := hkeys ▸ nodup_firstSeen keys
  have hend : entries.Nodup := List.Nodup.of_map Prod.fst hknodup
  have hperm : entries.mergeSort (fun x y => (cnt y.2 ≤ cnt x.2 : Bool)) ~ entries :=
    List.mergeSort_perm entries _
  have hSnodup : (entries.mergeSort (fun x y => (cnt y.2 ≤ cnt x.2 : Bool))).Nodup :=
    hperm.nodup_iff.mpr hend
  have hSfstnodup :
      ((entries.mergeSort (fun x y => (cnt y.2 ≤ cnt x.2 : Bool))).map Prod.fst).Nodup :=
    ((hperm.map Prod.fst).nodup_iff).mpr hknodup
  have hcnt' : ∀ p ∈ entries.mergeSort (fun x y => (cnt y.2 ≤ cnt x.2 : Bool)),
      cnt p.2 = keys.count p.1 := fun p hp => hcnt p (List.mem_mergeSort.mp hp)
  constructor
  · -- descending by count
    have hsorted := List.sorted_mergeSort htrans htotal entries
    have hdesc0 : (entries.mergeSort (fun x y => (cnt y.2 ≤ cnt x.2 : Bool))).Pairwise
        (fun x y => keys.count y.1 ≤ keys.count x.1) := by
      refine List.Pairwise.imp_of_mem ?_ hsorted
      intro a b ha hb hab
      rw [← hcnt' a ha, ← hcnt' b hb]
      simpa using hab
    have hmap : ((entries.mergeSort (fun x y => (cnt y.2 ≤ cnt x.2 : Bool))).map
        Prod.fst).Pairwise (fun a b => keys.count b ≤ keys.count a) :=
      List.pairwise_map.mpr hdesc0
    rw [List.map_take]
    exact List.Pairwise.sublist (List.take_sublist n _) hmap
  · -- stable tie-break by first-seen order
    intro k1 k2 hm1 hm2 hceq hidx hk2mem
    have h2 : [k1, k2] <+ entries.map Prod.fst := by
      rw [hkeys]
      exact pair_sublist_firstSeen keys hm1 hm2 hidx
    obtain ⟨l', hsub', heq'⟩ := List.sublist_map_iff.mp h2
    obtain ⟨e1, e2, rfl, he1, he2⟩ : ∃ e1 e2, l' = [e1, e2] ∧ e1.1 = k1 ∧ e2.1 = k2 := by
      rcases l' with _ | ⟨e1, _ | ⟨e2, rest⟩⟩
      · simp at heq'
      · simp at heq'
      · rcases rest with _ | ⟨e3, rest⟩
        · simp only [List.map_cons, List.map_nil, List.cons.injEq, and_true] at heq'
          exact ⟨e1, e2, rfl, heq'.1.symm, heq'.2.symm⟩
        · simp at heq'
    have hle : (cnt e2.2 ≤ cnt e1.2 : Bool) := by
      have c1 := hcnt e1 (hsub'.subset (by simp))
      have c2 := hcnt e2 (hsub'.subset (by simp))
      simp only [decide_eq_true_eq]
      rw [c1, c2, he1, he2, hceq]
    have hS : [e1, e2] <+ entries.mergeSort (fun x y => (cnt y.2 ≤ cnt x.2 : Bool)) :=
      List.pair_sublist_mergeSort htrans htotal hle hsub'
    have hpairlbl : [k1, k2] <+ (entries.mergeSort
        (fun x y => (cnt y.2 ≤ cnt x.2 : Bool))).map Prod.fst := by
      have hm := hS.map Prod.fst
      simp only [List.map_cons, List.map_nil] at hm
      rwa [he1, he2] at hm
    have hk1k2 := pair_sublist_indexOf_lt hpairlbl hSfstnodup
    have hk1L : k1 ∈ (entries.mergeSort (fun x y => (cnt y.2 ≤ cnt x.2 : Bool))).map
        Prod.fst := hpairlbl.subset (by simp)
    rw [List.map_take] at hk2mem ⊢
    have hk2L : ((entries.mergeSort (fun x y => (cnt y.2 ≤ cnt x.2 : Bool))).map
        Prod.fst).indexOf k2 < n := by
      have hlt := List.indexOf_lt_length.mpr hk2mem
      rw [indexOf_take hk2mem] at hlt
      have := List.length_take n ((entries.mergeSort
        (fun x y => (cnt y.2 ≤ cnt x.2 : Bool))).map Prod.fst)
      omega
    have hk1mem : k1 ∈ ((entries.mergeSort (fun x y => (cnt y.2 ≤ cnt x.2 : Bool))).map
        Prod.fst).take n := mem_take_of_indexOf_lt hk1L (lt_trans hk1k2 hk2L)
    refine ⟨hk1mem, ?_⟩
    rw [indexOf_take hk1mem, indexOf_take hk2mem]
    exact hk1k2

/-- C4: the three top-N rankings (top 8 routes of the route chart, top 8
airlines of the airline chart, top 5 routes of the top-routes panel) are each
ordered by descending count, and any two keys with equal counts are ranked in
the order of their first occurrence in the input flight sequence. -/
theorem top_rankings_descending_and_stable (flights : List Flight) :
    (DescendingByCount (routeKeys flights) (topRoutes8Labels flights) ∧
      StableByFirstSeen (routeKeys flights) (topRoutes8Labels flights)) ∧
    (DescendingByCount (airlineKeys flights) (topAirlines8Labels flights) ∧
      StableByFirstSeen (airlineKeys flights) (topAirlines8Labels flights)) ∧
    (DescendingByCount (routeKeys flights) (topRoutes5Labels flights) ∧
      StableByFirstSeen (routeKeys flights) (topRoutes5Labels flights)) := by
  refine ⟨?_, ?_, ?_⟩
  · exact ranking_descending_and_stable (routeKeys flights)
      (countEntries (fun f => f.route) flights) (fun c => c) 8
      (countEntries_map_fst (fun f => f.route) flights)
      (countEntries_count (fun f => f.route) flights)
  · exact ranking_descending_and_stable (airlineKeys flights)
      (countEntries (fun f => f.airline) flights) (fun c => c) 8
      (countEntries_map_fst (fun f => f.airline) flights)
      (countEntries_count (fun f => f.airline) flights)
  · exact ranking_descending_and_stable (routeKeys flights)
      (routeStatsList flights) RouteStat.count 5
      (routeStatsList_map_fst flights)
      (routeStatsList_count flights)

/-- Second flight for the C4 witness, on a different route. -/
def c4Flight2 : Flight :=
  { csvSampleRecord with origin := "ORD", destination := "LAS", route := "ORD-LAS" }

/-- Witness for C4: on a concrete two-flight input with tied route counts, the
route first seen earlier is ranked earlier in the route chart. -/
theorem top_rankings_descending_and_stable_witness :
    (topRoutes8Labels [csvSampleRecord, c4Flight2]).indexOf "JFK-LAX" <
      (topRoutes8Labels [csvSampleRecord, c4Flight2]).indexOf "ORD-LAS" := by
  have hE : countEntries (fun f => f.route) [csvSampleRecord, c4Flight2] =
      [("JFK-LAX", 1), ("ORD-LAS", 1)] := by decide
  have hlabels : topRoutes8Labels [csvSampleRecord, c4Flight2] =
      ["JFK-LAX", "ORD-LAS"] := by
    rw [topRoutes8Labels, topRoutes8, hE, List.mergeSort_of_sorted (by decide)]
    rfl
  have h := (top_rankings_descending_and_stable [csvSampleRecord, c4Flight2]).1.2
      "JFK-LAX" "ORD-LAS" (by decide) (by decide) (by decide) (by decide)
      (by rw [hlabels]; decide)
  exact h.2

end StableSort

end AirlineDashboard
